import Mathlib

/-!
Verification of the outcome-driven learning feedback loop of the
YouTube-Growth-Engine repository ("YouTube Strategy Lab").

The repository ships the frontend sources (React) together with the README;
the backend learning core (`backend/app/services/learning.py`) is described by
the specification (§4: Tokenizer, Matcher, Baseline Calculator, Scorer,
Insight Generator, Learning Cycle Orchestrator) and by the README section
"Continuously Learning".  The definitions below embed that core: components
not present among the shipped sources are modelled from the specification,
and each such definition says so in its doc comment.  The frontend component
`BatchChannelInput.jsx` is embedded directly from its source.

Numbers: video metrics are natural numbers, derived rates and scores are
rationals (the original code uses Python floats on small exact decimals).
Text is modelled as Lean `String` (equality only) except for the JS string
operations of the frontend, which are modelled on `List Char`.
-/

namespace YTLearning

/-- Performance tier of a scored match (spec §3, §4.4). -/
inductive Tier
  | high
  | medium
  | low
deriving DecidableEq, Repr

/-- Modelled from the spec: a persisted Suggestion record (spec §3), with its
normalized topic text, keyword tokens, reference channels, origin channel,
creation time and the mutable `matched` flag. -/
structure Suggestion where
  sid : Nat
  topicNorm : String
  keywords : List String
  refChannels : List Nat
  originChannel : Nat
  createdAt : Nat
  matched : Bool
deriving DecidableEq, Repr

/-- Modelled from the spec: an immutable Video snapshot (spec §3). -/
structure Video where
  vid : Nat
  channelId : Nat
  titleNorm : String
  titleTokens : List String
  publishedAt : Nat
  views : Nat
  likes : Nat
  comments : Nat
deriving DecidableEq, Repr

/-- Modelled from the spec: a persisted Match record (spec §3). -/
structure MatchR where
  suggestionId : Nat
  videoId : Nat
  similarity : ℚ
  perfScore : ℚ
  tier : Tier
  createdAt : Nat
deriving DecidableEq, Repr

/-- The fields of a Match that the Insight Generator reads (ids and tier);
`createdAt` and the raw score are not inspected when rendering insights. -/
structure MatchCore where
  suggestionId : Nat
  videoId : Nat
  tier : Tier
deriving DecidableEq, Repr

def MatchR.core (m : MatchR) : MatchCore :=
  ⟨m.suggestionId, m.videoId, m.tier⟩

/-- Modelled from the spec: a persisted Insight record (spec §3). -/
structure Insight where
  text : String
  createdAt : Nat
deriving DecidableEq, Repr

/-- The persistent store the learning cycle reads and writes (spec §3, §6). -/
structure Store where
  suggestions : List Suggestion
  videos : List Video
  matchList : List MatchR
  insights : List Insight
deriving DecidableEq, Repr

/-- Run summary returned by a completed learning cycle (spec §4.6). -/
structure Summary where
  videos_analyzed : Nat
  insights_generated : Nat
deriving DecidableEq, Repr

/-! ### Similarity (spec §4.2 step 1) -/

/-- Modelled from the spec: Jaccard similarity of two token lists, treated as
sets (0 if the union is empty). -/
def jaccard (a b : List String) : ℚ :=
  let A := a.dedup
  let B := b.dedup
  let inter := (A.filter (fun t => decide (t ∈ B))).length
  let union := (A ++ B.filter (fun t => decide (t ∉ A))).length
  if union = 0 then 0 else (inter : ℚ) / (union : ℚ)

/-- Substring test on normalized text (character-level infix). -/
def isSubstr (a b : String) : Bool :=
  decide (List.IsInfix a.data b.data)

/-- Modelled from the spec: candidate similarity = Jaccard over tokens, raised
to at least 0.6 when one normalized string is a substring of the other. -/
def similarity (s : Suggestion) (v : Video) : ℚ :=
  let base := jaccard s.keywords v.titleTokens
  if isSubstr s.topicNorm v.titleNorm || isSubstr v.titleNorm s.topicNorm then
    max base (3 / 5)
  else
    base

/-- Match threshold 0.28 (spec §4.2 step 2; README "threshold: 0.28"). -/
def matchThreshold : ℚ := 7 / 25

/-! ### Baseline Calculator (spec §4.3) -/

/-- Modelled from the spec: a channel's expected performance envelope. -/
structure ChannelBaseline where
  avgViews : ℚ
  avgLikeRate : ℚ
  avgCommentRate : ℚ
deriving DecidableEq, Repr

/-- Modelled from the spec: the configured channel-wide default constants used
when fewer than 2 historical videos exist; the spec fixes their existence but
not their values. -/
def defaultBaseline : ChannelBaseline :=
  ⟨1000, 1 / 25, 1 / 200⟩

/-- Like rate of a video: likes / max(views, 1) (spec §4.4). -/
def likeRate (v : Video) : ℚ :=
  (v.likes : ℚ) / ((max v.views 1 : Nat) : ℚ)

/-- Comment rate of a video: comments / max(views, 1) (spec §4.4). -/
def commentRate (v : Video) : ℚ :=
  (v.comments : ℚ) / ((max v.views 1 : Nat) : ℚ)

/-- Modelled from the spec: the Baseline Calculator.  All historical videos of
the channel except the one currently being scored are averaged; with fewer
than 2 remaining videos the configured defaults are returned. -/
def computeBaseline (hist : List Video) (excluding : Nat) : ChannelBaseline :=
  let h := hist.filter (fun v => v.vid != excluding)
  if h.length < 2 then defaultBaseline
  else
    ⟨(h.map (fun v => (v.views : ℚ))).sum / (h.length : ℚ),
     (h.map likeRate).sum / (h.length : ℚ),
     (h.map commentRate).sum / (h.length : ℚ)⟩

/-! ### Scorer (spec §4.4) -/

/-- clamp(x, lo, hi) as max lo (min hi x). -/
def clampQ (lo hi x : ℚ) : ℚ :=
  max lo (min hi x)

/-- Modelled from the spec: view ratio against the baseline (1.0 when the
baseline average is 0). -/
def viewRatio (v : Video) (b : ChannelBaseline) : ℚ :=
  if b.avgViews = 0 then 1 else (v.views : ℚ) / b.avgViews

/-- Modelled from the spec: engagement multiplier — average of the like-rate
and comment-rate ratios (a ratio whose baseline rate is 0 is treated as 1.0),
clamped to [0.7, 1.5]. -/
def engagementMultiplier (v : Video) (b : ChannelBaseline) : ℚ :=
  let t1 := if b.avgLikeRate = 0 then 1 else likeRate v / b.avgLikeRate
  let t2 := if b.avgCommentRate = 0 then 1 else commentRate v / b.avgCommentRate
  clampQ (7 / 10) (3 / 2) ((t1 + t2) / 2)

/-- Modelled from the spec: performance score = view ratio × engagement
multiplier. -/
def performanceScore (v : Video) (b : ChannelBaseline) : ℚ :=
  viewRatio v b * engagementMultiplier v b

/-- Modelled from the spec: tier = high iff score ≥ 1.2, low iff score ≤ 0.8,
medium otherwise. -/
def performanceTier (x : ℚ) : Tier :=
  if 6 / 5 ≤ x then Tier.high
  else if x ≤ 4 / 5 then Tier.low
  else Tier.medium

/-! ### Matcher (spec §4.2) -/

/-- A surviving candidate pair: a suggestion, a video, and their similarity. -/
structure Cand where
  s : Suggestion
  v : Video
  sim : ℚ
deriving DecidableEq, Repr

/-- Suggestion ids that already occur in a persisted Match. -/
def matchedSids (st : Store) : List Nat :=
  st.matchList.map MatchR.suggestionId

/-- Video ids that already occur in a persisted Match. -/
def matchedVids (st : Store) : List Nat :=
  st.matchList.map MatchR.videoId

/-- Modelled from the spec: a suggestion takes part in matching only while its
`matched` flag is unset and no persisted Match refers to it (spec §4.2: the
Matcher receives the unmatched Suggestions; step 4: pairs already present as a
persisted Match are skipped). -/
def eligSuggestion (st : Store) (s : Suggestion) : Bool :=
  !s.matched && !(st.matchList.any (fun m => m.suggestionId == s.sid))

/-- Modelled from the spec: a video takes part in matching only while no
persisted Match refers to it (spec §3 invariant together with §4.2 step 4). -/
def eligVideo (st : Store) (v : Video) : Bool :=
  !(st.matchList.any (fun m => m.videoId == v.vid))

/-- Modelled from the spec: the channel gate of §4.2 step 1 — the video's
channel belongs to the suggestion's reference channels or is its origin
channel. -/
def channelOk (s : Suggestion) (v : Video) : Bool :=
  s.refChannels.contains v.channelId || v.channelId == s.originChannel

/-- Modelled from the spec: all candidate pairs of one cycle — eligible
suggestion × eligible later-published video on an allowed channel, keeping
only pairs whose similarity reaches the match threshold (spec §4.2 steps
1 and 2). -/
def candPairs (st : Store) : List Cand :=
  (st.suggestions.filter (eligSuggestion st)).flatMap (fun s =>
    ((st.videos.filter (eligVideo st)).filter
        (fun v => channelOk s v && decide (s.createdAt < v.publishedAt))).filterMap
      (fun v =>
        if matchThreshold ≤ similarity s v then some ⟨s, v, similarity s v⟩
        else none))

/-- Descending-similarity order on candidates. -/
def candLe (a b : Cand) : Prop :=
  b.sim ≤ a.sim

instance : DecidableRel candLe :=
  fun a b => inferInstanceAs (Decidable (b.sim ≤ a.sim))

/-- Candidates sorted by similarity descending (spec §4.2 step 3). -/
def sortedCands (st : Store) : List Cand :=
  (candPairs st).insertionSort candLe

/-- Modelled from the spec: the greedy pass of §4.2 step 3 — walk the sorted
candidates, confirming a pair only while both its suggestion and its video are
still unassigned, and marking both consumed. -/
def greedyGo : List Cand → List Nat → List Nat → List Cand
  | [], _, _ => []
  | c :: rest, us, uv =>
    if c.s.sid ∈ us ∨ c.v.vid ∈ uv then greedyGo rest us uv
    else c :: greedyGo rest (c.s.sid :: us) (c.v.vid :: uv)

/-- The candidates confirmed by the greedy assignment of one cycle. -/
def chosenCands (st : Store) : List Cand :=
  greedyGo (sortedCands st) [] []

/-- Historical videos of a channel, as stored. -/
def channelHistory (st : Store) (chan : Nat) : List Video :=
  st.videos.filter (fun v => v.channelId == chan)

/-- Modelled from the spec: turn a confirmed candidate into a scored Match —
Baseline Calculator on the video's channel history excluding the video itself,
then the Scorer (spec §4.3, §4.4, §4.6). -/
def scoreCand (st : Store) (now : Nat) (c : Cand) : MatchR :=
  let b := computeBaseline (channelHistory st c.v.channelId) c.v.vid
  let ps := performanceScore c.v b
  ⟨c.s.sid, c.v.vid, c.sim, ps, performanceTier ps, now⟩

/-- The timestamp-free part of a scored candidate. -/
def candCore (st : Store) (c : Cand) : MatchCore :=
  ⟨c.s.sid, c.v.vid,
   performanceTier
     (performanceScore c.v (computeBaseline (channelHistory st c.v.channelId) c.v.vid))⟩

/-! ### Insight Generator (spec §4.5) -/

/-- Token pool of one match: its suggestion's keywords together with its
video's title tokens (spec §4.5 step 2). -/
def matchTokens (sugs : List Suggestion) (vids : List Video) (m : MatchCore) :
    List String :=
  ((sugs.filter (fun s => s.sid == m.suggestionId)).flatMap Suggestion.keywords) ++
    ((vids.filter (fun v => v.vid == m.videoId)).flatMap Video.titleTokens)

/-- Channels of one match's video (spec §4.5 step 3). -/
def matchChannels (vids : List Video) (m : MatchCore) : List Nat :=
  (vids.filter (fun v => v.vid == m.videoId)).map Video.channelId

/-- Number of matches of a partition whose token pool holds a token. -/
def tokenFreq (sugs : List Suggestion) (vids : List Video) (ms : List MatchCore)
    (t : String) : Nat :=
  (ms.filter (fun m => decide (t ∈ matchTokens sugs vids m))).length

/-- Modelled from the spec: the material frequency margin of §4.5 step 2; the
spec fixes its existence but not its value. -/
def freqMargin : Nat := 2

/-- Rendered rule for a token over-represented among high performers; the
multi-channel variant carries stronger confidence (spec §4.5 steps 3 and 4). -/
def renderHigh (multi : Bool) (t : String) : String :=
  if multi then
    "Multi-channel signal: topics featuring " ++ t ++
      " outperform the channel baseline across multiple channels - prefer this framing"
  else
    "Topics featuring " ++ t ++
      " outperform the channel baseline - prefer this framing"

/-- Rendered rule for a token over-represented among low performers. -/
def renderLow (t : String) : String :=
  "Topics featuring " ++ t ++
    " underperform the channel baseline - avoid this framing"

/-- Modelled from the spec: the Insight Generator on the fields it reads —
partition the matches by tier, compare per-token frequencies between the high
and the low partition, elevate tokens that occur in high-tier matches across
at least 2 distinct channels, and render each retained signal as a fixed
natural-language rule (spec §4.5 steps 1–4; deterministic by construction). -/
def genInsightTextsCore (sugs : List Suggestion) (vids : List Video)
    (ms : List MatchCore) : List String :=
  let highs := ms.filter (fun m => m.tier == Tier.high)
  let lows := ms.filter (fun m => m.tier == Tier.low)
  let toks := (ms.flatMap (matchTokens sugs vids)).dedup
  toks.flatMap (fun t =>
    let fh := tokenFreq sugs vids highs t
    let fl := tokenFreq sugs vids lows t
    if fl + freqMargin ≤ fh then
      let chans :=
        ((highs.filter (fun m => decide (t ∈ matchTokens sugs vids m))).flatMap
          (matchChannels vids)).dedup
      [renderHigh (decide (2 ≤ chans.length)) t]
    else if fh + freqMargin ≤ fl then [renderLow t]
    else [])

/-- The Insight Generator over the full scored Match set: it reads each
match's ids and tier and the stored suggestions and videos. -/
def genInsightTexts (st : Store) (ms : List MatchR) : List String :=
  genInsightTextsCore st.suggestions st.videos (ms.map MatchR.core)

/-- Case/whitespace-insensitive normalization used to deduplicate insight
texts (spec §4.5 step 5). -/
def normText (s : String) : String :=
  ⟨(s.data.filter (fun c => !c.isWhitespace)).map Char.toLower⟩

/-! ### Learning Cycle Orchestrator (spec §4.6) -/

/-- The new Matches confirmed and scored by one cycle. -/
def newMatches (now : Nat) (st : Store) : List MatchR :=
  (chosenCands st).map (scoreCand st now)

/-- Suggestion ids newly matched by one cycle. -/
def newSids (now : Nat) (st : Store) : List Nat :=
  (newMatches now st).map MatchR.suggestionId

/-- Suggestions after the cycle flips the `matched` flag of every newly
matched suggestion. -/
def flagUpdated (now : Nat) (st : Store) : List Suggestion :=
  st.suggestions.map (fun s =>
    if s.sid ∈ newSids now st then { s with matched := true } else s)

/-- The store after the cycle persists its new Matches and flag updates,
before insights are appended. -/
def midStore (now : Nat) (st : Store) : Store :=
  { st with
    suggestions := flagUpdated now st
    matchList := st.matchList ++ newMatches now st }

/-- Modelled from the spec: the net-new insight texts of one cycle — the
Insight Generator over the updated Match set, deduplicated against the
existing Insight texts (spec §4.5 step 5, §4.6). -/
def freshTexts (now : Nat) (st : Store) : List String :=
  (genInsightTexts (midStore now st) (midStore now st).matchList).filter
    (fun tx => !(st.insights.any (fun i => normText i.text == normText tx)))

/-- Modelled from the spec: one learning cycle (spec §4.6) — Matcher, then
Baseline Calculator + Scorer per confirmed match, persist Matches and flag
updates, Insight Generator over the updated Match set, persist the net-new
Insights, and return the run summary. -/
def runCycle (now : Nat) (st : Store) : Store × Summary :=
  ({ midStore now st with
      insights := st.insights ++ (freshTexts now st).map (fun tx => ⟨tx, now⟩) },
   ⟨(st.videos.filter (eligVideo st)).length, (freshTexts now st).length⟩)

/-- A persistence-layer failure mode (spec §7). -/
inductive PersistFailure
  | loadFail
  | writeFail
deriving DecidableEq, Repr

/-- The single structured failure reported for a persistence failure. -/
def failMessage : PersistFailure → String
  | PersistFailure.loadFail => "learning cycle failed: could not read the persistence layer"
  | PersistFailure.writeFail => "learning cycle failed: could not write the persistence layer"

/-- Modelled from the spec: the cycle entry point over a fallible persistence
layer (spec §4.6, §7).  A failure reading or writing storage is fatal: the
call surfaces a single error and performs no write at all — the commit of
Matches, flag updates and Insights happens only on the success path. -/
def runLearningCycle (fail : Option PersistFailure) (now : Nat) (st : Store) :
    Except String (Store × Summary) :=
  match fail with
  | some f => Except.error (failMessage f)
  | none => Except.ok (runCycle now st)

/-! ### Reachable stores -/

/-- Stores reachable by the life cycle of §3: external collaborators create
Suggestions (initially unmatched) and Videos; Matches and Insights are created
exclusively by completed learning cycles. -/
inductive Reachable : Store → Prop
  | init (sugs : List Suggestion) (vids : List Video)
      (hS : ∀ s ∈ sugs, s.matched = false) :
      Reachable ⟨sugs, vids, [], []⟩
  | grow (st : Store) (newS : List Suggestion) (newV : List Video)
      (hS : ∀ s ∈ newS, s.matched = false) (h : Reachable st) :
      Reachable { st with
        suggestions := st.suggestions ++ newS
        videos := st.videos ++ newV }
  | cycle (st : Store) (now : Nat) (h : Reachable st) :
      Reachable (runCycle now st).1

/-- A suggestion's `matched` flag is only set together with a persisted Match
(spec §7). -/
def flagConsistent (st : Store) : Prop :=
  ∀ s ∈ st.suggestions, s.matched = true → s.sid ∈ matchedSids st

/-! ### Scorer example (spec §8 Example 3) -/

/-- The matched video of Example 3: views 20000, likes 1200, comments 150. -/
def exampleVideo : Video :=
  ⟨1, 1, "", [], 0, 20000, 1200, 150⟩

/-- The baseline of Example 3: avg_views 10000, avg_like_rate 0.05,
avg_comment_rate 0.01. -/
def exampleBaseline : ChannelBaseline :=
  ⟨10000, 1 / 20, 1 / 100⟩

/-- C2: the Scorer on a video with views 20000, likes 1200, comments 150
against a baseline with avg_views 10000, avg_like_rate 0.05, avg_comment_rate
0.01 returns view_ratio 2.0, like_rate 0.06, comment_rate 0.0075, engagement
multiplier 0.975 (average of the terms 1.2 and 0.75, unchanged by the clamp),
performance score 1.95, and tier high. -/
theorem scorer_example_values :
    viewRatio exampleVideo exampleBaseline = 2 ∧
    likeRate exampleVideo = 3 / 50 ∧
    commentRate exampleVideo = 3 / 400 ∧
    engagementMultiplier exampleVideo exampleBaseline = 39 / 40 ∧
    performanceScore exampleVideo exampleBaseline = 39 / 20 ∧
    performanceTier (performanceScore exampleVideo exampleBaseline) = Tier.high := by
  refine ⟨?_, ?_, ?_, ?_, ?_, ?_⟩ <;>
    norm_num [viewRatio, likeRate, commentRate, engagementMultiplier,
      performanceScore, performanceTier, clampQ, exampleVideo, exampleBaseline,
      min_def, max_def]

/-- C3: for every video and baseline the engagement multiplier lies in the
closed interval [0.7, 1.5] — the clamp bounds it regardless of zero guards or
input magnitude. -/
theorem engagement_multiplier_clamped (v : Video) (b : ChannelBaseline) :
    7 / 10 ≤ engagementMultiplier v b ∧ engagementMultiplier v b ≤ 3 / 2 := by
  simp only [engagementMultiplier, clampQ]
  exact ⟨le_max_left _ _, max_le (by norm_num) (min_le_left _ _)⟩

/-- C6: when the historical video set of a channel, after excluding the video
currently being scored, holds fewer than 2 videos, the Baseline Calculator
returns the configured channel-wide default constants. -/
theorem baseline_insufficient_data (hist : List Video) (x : Nat)
    (h : (hist.filter (fun v => v.vid != x)).length < 2) :
    computeBaseline hist x = defaultBaseline := by
  simp only [computeBaseline]
  rw [if_pos h]

/-- Witness for C6 at the empty history. -/
theorem baseline_insufficient_data_witness :
    (([] : List Video).filter (fun v => v.vid != 0)).length < 2 ∧
    computeBaseline [] 0 = defaultBaseline :=
  ⟨by decide, baseline_insufficient_data [] 0 (by decide)⟩

/-! ### Properties of the greedy assignment -/

lemma greedyGo_nil (us uv : List Nat) : greedyGo [] us uv = [] := rfl

lemma greedyGo_cons (c0 : Cand) (rest : List Cand) (us uv : List Nat) :
    greedyGo (c0 :: rest) us uv =
      if c0.s.sid ∈ us ∨ c0.v.vid ∈ uv then greedyGo rest us uv
      else c0 :: greedyGo rest (c0.s.sid :: us) (c0.v.vid :: uv) := rfl

/-- A confirmed candidate came from the input list and neither of its ends was
consumed beforehand. -/
lemma greedyGo_mem {cs : List Cand} {us uv : List Nat} {c : Cand}
    (h : c ∈ greedyGo cs us uv) : c ∈ cs ∧ c.s.sid ∉ us ∧ c.v.vid ∉ uv := by
  induction cs generalizing us uv with
  | nil => simp [greedyGo_nil] at h
  | cons c0 rest ih =>
    rw [greedyGo_cons] at h
    by_cases hc : c0.s.sid ∈ us ∨ c0.v.vid ∈ uv
    · rw [if_pos hc] at h
      obtain ⟨h1, h2, h3⟩ := ih h
      exact ⟨List.mem_cons_of_mem _ h1, h2, h3⟩
    · rw [if_neg hc] at h
      push_neg at hc
      rcases List.mem_cons.mp h with rfl | h
      · exact ⟨List.mem_cons_self _ _, hc.1, hc.2⟩
      · obtain ⟨h1, h2, h3⟩ := ih h
        refine ⟨List.mem_cons_of_mem _ h1, ?_, ?_⟩
        · exact fun hx => h2 (List.mem_cons_of_mem _ hx)
        · exact fun hx => h3 (List.mem_cons_of_mem _ hx)

/-- The suggestion ids confirmed by the greedy pass are pairwise distinct. -/
lemma greedyGo_nodup_sids (cs : List Cand) (us uv : List Nat) :
    ((greedyGo cs us uv).map (fun c => c.s.sid)).Nodup := by
  induction cs generalizing us uv with
  | nil => simp [greedyGo_nil]
  | cons c0 rest ih =>
    rw [greedyGo_cons]
    by_cases hc : c0.s.sid ∈ us ∨ c0.v.vid ∈ uv
    · rw [if_pos hc]; exact ih us uv
    · rw [if_neg hc]
      simp only [List.map_cons, List.nodup_cons]
      refine ⟨?_, ih _ _⟩
      intro hx
      obtain ⟨c, hcmem, hcs⟩ := List.mem_map.mp hx
      exact (greedyGo_mem hcmem).2.1 (by rw [hcs]; exact List.mem_cons_self _ _)

/-- The video ids confirmed by the greedy pass are pairwise distinct. -/
lemma greedyGo_nodup_vids (cs : List Cand) (us uv : List Nat) :
    ((greedyGo cs us uv).map (fun c => c.v.vid)).Nodup := by
  induction cs generalizing us uv with
  | nil => simp [greedyGo_nil]
  | cons c0 rest ih =>
    rw [greedyGo_cons]
    by_cases hc : c0.s.sid ∈ us ∨ c0.v.vid ∈ uv
    · rw [if_pos hc]; exact ih us uv
    · rw [if_neg hc]
      simp only [List.map_cons, List.nodup_cons]
      refine ⟨?_, ih _ _⟩
      intro hx
      obtain ⟨c, hcmem, hcs⟩ := List.mem_map.mp hx
      exact (greedyGo_mem hcmem).2.2 (by rw [hcs]; exact List.mem_cons_self _ _)

/-- Every candidate offered to the greedy pass ends up with at least one of
its two ends consumed: either it was consumed beforehand, or some confirmed
pair (possibly itself) uses its suggestion or its video. -/
lemma greedyGo_cover {cs : List Cand} {us uv : List Nat} {c : Cand}
    (h : c ∈ cs) :
    c.s.sid ∈ us ∨ c.v.vid ∈ uv ∨
      c.s.sid ∈ (greedyGo cs us uv).map (fun x => x.s.sid) ∨
      c.v.vid ∈ (greedyGo cs us uv).map (fun x => x.v.vid) := by
  induction cs generalizing us uv with
  | nil => cases h
  | cons c0 rest ih =>
    rw [greedyGo_cons]
    by_cases hc : c0.s.sid ∈ us ∨ c0.v.vid ∈ uv
    · rw [if_pos hc]
      rcases List.mem_cons.mp h with rfl | hmem
      · rcases hc with h1 | h1
        · exact Or.inl h1
        · exact Or.inr (Or.inl h1)
      · exact ih hmem
    · rw [if_neg hc]
      rcases List.mem_cons.mp h with rfl | hmem
      · exact Or.inr (Or.inr (Or.inl (by simp)))
      · rcases @ih (c0.s.sid :: us) (c0.v.vid :: uv) hmem
          with h1 | h1 | h1 | h1
        · rcases List.mem_cons.mp h1 with h2 | h2
          · exact Or.inr (Or.inr (Or.inl (by simp [h2])))
          · exact Or.inl h2
        · rcases List.mem_cons.mp h1 with h2 | h2
          · exact Or.inr (Or.inr (Or.inr (by simp [h2])))
          · exact Or.inr (Or.inl h2)
        · exact Or.inr (Or.inr (Or.inl (by
            rw [List.map_cons]; exact List.mem_cons_of_mem _ h1)))
        · exact Or.inr (Or.inr (Or.inr (by
            rw [List.map_cons]; exact List.mem_cons_of_mem _ h1)))

/-! ### Candidate pairs -/

lemma eligSuggestion_iff {st : Store} {s : Suggestion} :
    eligSuggestion st s = true ↔ s.matched = false ∧ s.sid ∉ matchedSids st := by
  simp only [eligSuggestion, Bool.and_eq_true, Bool.not_eq_true',
    List.any_eq_false, beq_iff_eq, matchedSids, List.mem_map, not_exists,
    not_and]

lemma eligVideo_iff {st : Store} {v : Video} :
    eligVideo st v = true ↔ v.vid ∉ matchedVids st := by
  simp only [eligVideo, Bool.not_eq_true', List.any_eq_false, beq_iff_eq,
    matchedVids, List.mem_map, not_exists, not_and]

/-- Characterization of the surviving candidate pairs of a cycle. -/
lemma mem_candPairs {st : Store} {c : Cand} :
    c ∈ candPairs st ↔
      c.s ∈ st.suggestions ∧ eligSuggestion st c.s = true ∧
      c.v ∈ st.videos ∧ eligVideo st c.v = true ∧
      channelOk c.s c.v = true ∧ c.s.createdAt < c.v.publishedAt ∧
      matchThreshold ≤ similarity c.s c.v ∧ c.sim = similarity c.s c.v := by
  constructor
  · intro h
    simp only [candPairs, List.mem_flatMap, List.mem_filter,
      List.mem_filterMap, Bool.and_eq_true, decide_eq_true_eq] at h
    obtain ⟨s, ⟨hs, hse⟩, v, ⟨⟨hv, hve⟩, hch, hlt⟩, hsome⟩ := h
    by_cases ht : matchThreshold ≤ similarity s v
    · rw [if_pos ht] at hsome
      obtain rfl : (⟨s, v, similarity s v⟩ : Cand) = c := Option.some.inj hsome
      exact ⟨hs, hse, hv, hve, hch, hlt, ht, rfl⟩
    · rw [if_neg ht] at hsome
      cases hsome
  · rintro ⟨h1, h2, h3, h4, h5, h6, h7, h8⟩
    simp only [candPairs, List.mem_flatMap, List.mem_filter,
      List.mem_filterMap, Bool.and_eq_true, decide_eq_true_eq]
    refine ⟨c.s, ⟨h1, h2⟩, c.v, ⟨⟨h3, h4⟩, h5, h6⟩, ?_⟩
    rw [if_pos h7]
    rw [← h8]

/-- Every confirmed candidate of a cycle is a surviving candidate pair. -/
lemma chosen_mem_candPairs {st : Store} {c : Cand} (h : c ∈ chosenCands st) :
    c ∈ candPairs st :=
  (List.mem_insertionSort candLe).mp (greedyGo_mem h).1

lemma scoreCand_core_eq (st : Store) (now : Nat) (c : Cand) :
    (scoreCand st now c).core = candCore st c := rfl

lemma newMatches_map_sid (now : Nat) (st : Store) :
    (newMatches now st).map MatchR.suggestionId =
      (chosenCands st).map (fun c => c.s.sid) := by
  simp only [newMatches, List.map_map]
  rfl

lemma newMatches_map_vid (now : Nat) (st : Store) :
    (newMatches now st).map MatchR.videoId =
      (chosenCands st).map (fun c => c.v.vid) := by
  simp only [newMatches, List.map_map]
  rfl

/-! ### Invariants of reachable stores -/

lemma runCycle_matchList (now : Nat) (st : Store) :
    (runCycle now st).1.matchList = st.matchList ++ newMatches now st := rfl

lemma runCycle_suggestions (now : Nat) (st : Store) :
    (runCycle now st).1.suggestions = flagUpdated now st := rfl

lemma runCycle_videos (now : Nat) (st : Store) :
    (runCycle now st).1.videos = st.videos := rfl

/-- One completed cycle preserves the one-to-one shape of the Match set. -/
lemma cycle_preserves_nodup {st : Store}
    (h1 : (matchedSids st).Nodup) (h2 : (matchedVids st).Nodup) (now : Nat) :
    (matchedSids (runCycle now st).1).Nodup ∧
      (matchedVids (runCycle now st).1).Nodup := by
  constructor
  · rw [matchedSids, runCycle_matchList, List.map_append, List.nodup_append]
    refine ⟨h1, ?_, ?_⟩
    · rw [newMatches_map_sid]; exact greedyGo_nodup_sids _ _ _
    · intro x hx hx2
      rw [newMatches_map_sid] at hx2
      obtain ⟨c, hc, rfl⟩ := List.mem_map.mp hx2
      exact (eligSuggestion_iff.mp (mem_candPairs.mp (chosen_mem_candPairs hc)).2.1).2 hx
  · rw [matchedVids, runCycle_matchList, List.map_append, List.nodup_append]
    refine ⟨h2, ?_, ?_⟩
    · rw [newMatches_map_vid]; exact greedyGo_nodup_vids _ _ _
    · intro x hx hx2
      rw [newMatches_map_vid] at hx2
      obtain ⟨c, hc, rfl⟩ := List.mem_map.mp hx2
      exact eligVideo_iff.mp (mem_candPairs.mp (chosen_mem_candPairs hc)).2.2.2.1 hx

/-- In every reachable store the persisted Matches are one-to-one. -/
lemma reachable_nodup {st : Store} (h : Reachable st) :
    (matchedSids st).Nodup ∧ (matchedVids st).Nodup := by
  induction h with
  | init sugs vids hS => simp [matchedSids, matchedVids]
  | grow st newS newV hS h ih => exact ih
  | cycle st now h ih => exact cycle_preserves_nodup ih.1 ih.2 now

/-- In every reachable store every persisted Match reaches the threshold. -/
lemma reachable_threshold {st : Store} (h : Reachable st) :
    ∀ m ∈ st.matchList, matchThreshold ≤ m.similarity := by
  induction h with
  | init sugs vids hS => simp
  | grow st newS newV hS h ih => exact ih
  | cycle st now h ih =>
    intro m hm
    rw [runCycle_matchList] at hm
    rcases List.mem_append.mp hm with h1 | h1
    · exact ih m h1
    · obtain ⟨c, hc, rfl⟩ := List.mem_map.mp h1
      have h7 := (mem_candPairs.mp (chosen_mem_candPairs hc)).2.2.2.2.2.2.1
      have h8 := (mem_candPairs.mp (chosen_mem_candPairs hc)).2.2.2.2.2.2.2
      show matchThreshold ≤ c.sim
      rw [h8]
      exact h7

/-- In every reachable store a suggestion's `matched` flag implies a persisted
Match for it. -/
lemma reachable_flagConsistent {st : Store} (h : Reachable st) :
    flagConsistent st := by
  induction h with
  | init sugs vids hS =>
    intro s hs hm
    rw [hS s hs] at hm
    cases hm
  | grow st newS newV hS h ih =>
    intro s hs hm
    rcases List.mem_append.mp hs with h1 | h1
    · exact ih s h1 hm
    · rw [hS s h1] at hm
      cases hm
  | cycle st now h ih =>
    intro s hs hm
    rw [runCycle_suggestions, flagUpdated] at hs
    obtain ⟨s0, hs0, heq⟩ := List.mem_map.mp hs
    rw [matchedSids, runCycle_matchList, List.map_append]
    by_cases hin : s0.sid ∈ newSids now st
    · rw [if_pos hin] at heq
      rw [← heq]
      exact List.mem_append_right _ hin
    · rw [if_neg hin] at heq
      rw [← heq] at hm ⊢
      exact List.mem_append_left _ (ih s0 hs0 hm)

/-! ### Claim C1 -/

/-- C1: in every store reachable by completed learning cycles the persisted
Matches are one-to-one — no suggestion id and no video id occurs in more than
one Match; the invariant is established by the greedy assignment over the
similarity-sorted candidates, a pair being confirmed only while both of its
ends are unassigned. -/
theorem persisted_matches_one_to_one {st : Store} (h : Reachable st) :
    (st.matchList.map MatchR.suggestionId).Nodup ∧
      (st.matchList.map MatchR.videoId).Nodup :=
  reachable_nodup h

/-- A suggestion whose normalized topic is a substring of the witness video's
normalized title. -/
def wSug : Suggestion :=
  ⟨1, "retro console restoration", [], [7], 7, 0, false⟩

/-- A video on the suggestion's reference channel, published afterwards. -/
def wVid : Video :=
  ⟨2, 7, "full retro console restoration guide", [], 5, 1000, 40, 5⟩

/-- A reachable starting store holding the witness suggestion and video. -/
def witnessStore : Store :=
  ⟨[wSug], [wVid], [], []⟩

/-- Witness for C1 after one completed cycle on the witness store. -/
theorem persisted_matches_one_to_one_witness :
    ((runCycle 9 witnessStore).1.matchList.map MatchR.suggestionId).Nodup ∧
      ((runCycle 9 witnessStore).1.matchList.map MatchR.videoId).Nodup :=
  persisted_matches_one_to_one
    (Reachable.cycle witnessStore 9 (Reachable.init [wSug] [wVid] (by decide)))

/-! ### Claim C5 -/

/-- C5: in no reachable store does a persisted Match lie below the match
threshold 0.28 — the Matcher discards every candidate below the threshold and
never creates a fallback Match. -/
theorem no_match_below_threshold {st : Store} (h : Reachable st)
    (m : MatchR) (hm : m ∈ st.matchList) : matchThreshold ≤ m.similarity :=
  reachable_threshold h m hm

lemma witness_substr : isSubstr wSug.topicNorm wVid.titleNorm = true := by
  decide

lemma witness_similarity : similarity wSug wVid = 3 / 5 := by
  have hj : jaccard wSug.keywords wVid.titleTokens = 0 := rfl
  simp only [similarity, hj, witness_substr, Bool.true_or, if_true]
  norm_num [max_def]

lemma witness_candPairs :
    candPairs witnessStore = [⟨wSug, wVid, similarity wSug wVid⟩] := by
  have ht : matchThreshold ≤ similarity wSug wVid := by
    rw [witness_similarity]; norm_num [matchThreshold]
  have h1 : witnessStore.suggestions.filter (eligSuggestion witnessStore) =
      [wSug] := rfl
  have h2 : (witnessStore.videos.filter (eligVideo witnessStore)).filter
      (fun v => channelOk wSug v && decide (wSug.createdAt < v.publishedAt)) =
      [wVid] := rfl
  simp only [candPairs, h1, List.flatMap_cons, List.flatMap_nil,
    List.append_nil, h2, List.filterMap_cons, List.filterMap_nil]
  rw [if_pos ht]

/-- The single candidate confirmed on the witness store. -/
def wCand : Cand :=
  ⟨wSug, wVid, similarity wSug wVid⟩

/-- The single Match persisted by the witness cycle. -/
def wMatch : MatchR :=
  scoreCand witnessStore 9 wCand

lemma witness_newMatches : newMatches 9 witnessStore = [wMatch] := by
  have h1 : sortedCands witnessStore = [wCand] := by
    rw [sortedCands, witness_candPairs]
    rfl
  rw [newMatches, chosenCands, h1]
  rfl

lemma witness_match_mem : wMatch ∈ (runCycle 9 witnessStore).1.matchList := by
  rw [runCycle_matchList, witness_newMatches]
  simp [witnessStore]

/-- Witness for C5 at the Match persisted by the witness cycle. -/
theorem no_match_below_threshold_witness :
    wMatch ∈ (runCycle 9 witnessStore).1.matchList ∧
      matchThreshold ≤ wMatch.similarity :=
  ⟨witness_match_mem,
   no_match_below_threshold
     (Reachable.cycle witnessStore 9 (Reachable.init [wSug] [wVid] (by decide)))
     wMatch witness_match_mem⟩

/-! ### Claim C7 -/

/-- C7: a persistence failure during a learning cycle surfaces a single error
to the caller and commits nothing — the model performs the write of Matches,
flag updates and Insights only on the success path, so the persistent store is
unchanged; moreover in every reachable store a suggestion's `matched` flag is
never set without a corresponding persisted Match. -/
theorem persistence_failure_fatal {st : Store} (h : Reachable st)
    (f : PersistFailure) (now : Nat) :
    runLearningCycle (some f) now st = Except.error (failMessage f) ∧
      flagConsistent st :=
  ⟨rfl, reachable_flagConsistent h⟩

/-- Witness for C7 at the empty store with a read failure. -/
theorem persistence_failure_fatal_witness :
    runLearningCycle (some PersistFailure.loadFail) 3 (Store.mk [] [] [] []) =
      Except.error (failMessage PersistFailure.loadFail) ∧
      flagConsistent (Store.mk [] [] [] []) :=
  persistence_failure_fatal (Reachable.init [] [] (by simp))
    PersistFailure.loadFail 3

/-! ### Rerunning the cycle without new data (claim C4) -/

lemma matchedSids_runCycle (now : Nat) (st : Store) :
    matchedSids (runCycle now st).1 = matchedSids st ++ newSids now st := by
  rw [matchedSids, runCycle_matchList, List.map_append]
  rfl

lemma matchedVids_runCycle (now : Nat) (st : Store) :
    matchedVids (runCycle now st).1 =
      matchedVids st ++ (newMatches now st).map MatchR.videoId := by
  rw [matchedVids, runCycle_matchList, List.map_append]
  rfl

/-- After a completed cycle no surviving candidate pair is left: each one lost
its suggestion or its video to the greedy assignment, so a rerun without new
data finds no candidates at all. -/
lemma candPairs_runCycle_nil (now : Nat) (st : Store) :
    candPairs (runCycle now st).1 = [] := by
  rw [List.eq_nil_iff_forall_not_mem]
  intro c hc
  obtain ⟨hcs, hse, hcv, hve, hch, hlt, hth, -⟩ := mem_candPairs.mp hc
  have hv' : c.v ∈ st.videos := by rw [runCycle_videos] at hcv; exact hcv
  have hvid := eligVideo_iff.mp hve
  rw [matchedVids_runCycle] at hvid
  have hvid_old : c.v.vid ∉ matchedVids st :=
    fun hx => hvid (List.mem_append_left _ hx)
  have hvid_new : c.v.vid ∉ (newMatches now st).map MatchR.videoId :=
    fun hx => hvid (List.mem_append_right _ hx)
  have hflags := eligSuggestion_iff.mp hse
  rw [runCycle_suggestions, flagUpdated] at hcs
  obtain ⟨s0, hs0, heq⟩ := List.mem_map.mp hcs
  by_cases hin : s0.sid ∈ newSids now st
  · rw [if_pos hin] at heq
    rw [← heq] at hflags
    simp at hflags
  · rw [if_neg hin] at heq
    subst heq
    have hsid := hflags.2
    rw [matchedSids_runCycle] at hsid
    have hsid_old : c.s.sid ∉ matchedSids st :=
      fun hx => hsid (List.mem_append_left _ hx)
    have hsid_new : c.s.sid ∉ newSids now st := hin
    have hcand : (⟨c.s, c.v, similarity c.s c.v⟩ : Cand) ∈ candPairs st :=
      mem_candPairs.mpr
        ⟨hs0, eligSuggestion_iff.mpr ⟨hflags.1, hsid_old⟩, hv',
         eligVideo_iff.mpr hvid_old, hch, hlt, hth, rfl⟩
    have hsorted : (⟨c.s, c.v, similarity c.s c.v⟩ : Cand) ∈ sortedCands st :=
      (List.mem_insertionSort candLe).mpr hcand
    rcases @greedyGo_cover (sortedCands st) [] [] _ hsorted with h1 | h1 | h1 | h1
    · cases h1
    · cases h1
    · apply hsid_new
      rw [newSids, newMatches_map_sid]
      exact h1
    · apply hvid_new
      rw [newMatches_map_vid]
      exact h1

/-- A second cycle without new data confirms zero new Matches. -/
lemma newMatches_runCycle_nil (t2 now : Nat) (st : Store) :
    newMatches t2 (runCycle now st).1 = [] := by
  rw [newMatches, chosenCands, sortedCands, candPairs_runCycle_nil]
  rfl

lemma map_flag_nil (l : List Suggestion) :
    l.map (fun s =>
      if s.sid ∈ ([] : List Nat) then { s with matched := true } else s) = l := by
  induction l with
  | nil => rfl
  | cons a t ih => simp [ih]

lemma flagUpdated_of_nil {now : Nat} {st : Store}
    (h : newSids now st = []) : flagUpdated now st = st.suggestions := by
  rw [flagUpdated, h, map_flag_nil]

lemma midStore_of_nil {now : Nat} {st : Store}
    (h : newMatches now st = []) : midStore now st = st := by
  have hs : newSids now st = [] := by rw [newSids, h]; rfl
  rw [midStore, flagUpdated_of_nil hs, h, List.append_nil]

lemma runCycle_insights (now : Nat) (st : Store) :
    (runCycle now st).1.insights =
      st.insights ++ (freshTexts now st).map (fun tx => ⟨tx, now⟩) := rfl

/-- A second cycle without new data generates zero net-new insights: the
generator is deterministic on the unchanged Match set, and every rendered text
was already deduplicated into the store by the first cycle. -/
lemma freshTexts_runCycle_nil (t2 now : Nat) (st : Store) :
    freshTexts t2 (runCycle now st).1 = [] := by
  have hnm := newMatches_runCycle_nil t2 now st
  have hmid : midStore t2 (runCycle now st).1 = (runCycle now st).1 :=
    midStore_of_nil hnm
  rw [freshTexts, hmid]
  rw [List.filter_eq_nil_iff]
  intro tx htx
  simp only [Bool.not_eq_true', Bool.not_eq_false]
  apply List.any_eq_true.mpr
  have htx' : tx ∈ genInsightTexts (midStore now st) (midStore now st).matchList :=
    htx
  by_cases hkeep :
      (st.insights.any (fun i => normText i.text == normText tx)) = true
  · obtain ⟨i, hi, hieq⟩ := List.any_eq_true.mp hkeep
    refine ⟨i, ?_, hieq⟩
    rw [runCycle_insights]
    exact List.mem_append_left _ hi
  · have hkeep' :
        (st.insights.any (fun i => normText i.text == normText tx)) = false := by
      revert hkeep
      cases st.insights.any (fun i => normText i.text == normText tx) <;> simp
    have hfresh : tx ∈ freshTexts now st := by
      rw [freshTexts]
      refine List.mem_filter.mpr ⟨htx', ?_⟩
      rw [hkeep']
      rfl
    refine ⟨⟨tx, now⟩, ?_, ?_⟩
    · rw [runCycle_insights]
      exact List.mem_append_right _ (List.mem_map.mpr ⟨tx, hfresh, rfl⟩)
    · exact beq_self_eq_true _

/-- C4: rerunning the learning cycle with no new Suggestions and no new Videos
creates zero new Matches, returns a summary with insights_generated = 0, and
leaves the whole persisted store (Matches, Insights, flags) unchanged. -/
theorem rerun_without_new_data_is_noop (st : Store) (t1 t2 : Nat) :
    newMatches t2 (runCycle t1 st).1 = [] ∧
      (runCycle t2 (runCycle t1 st).1).1 = (runCycle t1 st).1 ∧
      (runCycle t2 (runCycle t1 st).1).2.insights_generated = 0 := by
  have hnm := newMatches_runCycle_nil t2 t1 st
  have hft := freshTexts_runCycle_nil t2 t1 st
  refine ⟨hnm, ?_, ?_⟩
  · rw [show (runCycle t2 (runCycle t1 st).1).1 =
        { midStore t2 (runCycle t1 st).1 with
          insights := (runCycle t1 st).1.insights ++
            (freshTexts t2 (runCycle t1 st).1).map (fun tx => ⟨tx, t2⟩) }
        from rfl]
    rw [midStore_of_nil hnm, hft]
    simp
  · rw [show (runCycle t2 (runCycle t1 st).1).2.insights_generated =
        (freshTexts t2 (runCycle t1 st).1).length from rfl, hft]
    rfl

/-! ### Determinism of the Insight Generator (claim C8) -/

lemma flagUpdated_time_indep (t1 t2 : Nat) (st : Store) :
    flagUpdated t1 st = flagUpdated t2 st := by
  have h : newSids t1 st = newSids t2 st := by
    rw [newSids, newSids, newMatches_map_sid, newMatches_map_sid]
  rw [flagUpdated, flagUpdated, h]

lemma midStore_core_time_indep (t1 t2 : Nat) (st : Store) :
    (midStore t1 st).matchList.map MatchR.core =
      (midStore t2 st).matchList.map MatchR.core := by
  show (st.matchList ++ newMatches t1 st).map MatchR.core =
    (st.matchList ++ newMatches t2 st).map MatchR.core
  rw [List.map_append, List.map_append]
  congr 1
  rw [newMatches, newMatches, List.map_map, List.map_map]
  rfl

lemma genInsightTexts_time_indep (t1 t2 : Nat) (st : Store) :
    genInsightTexts (midStore t1 st) (midStore t1 st).matchList =
      genInsightTexts (midStore t2 st) (midStore t2 st).matchList := by
  rw [genInsightTexts, genInsightTexts,
    show (midStore t1 st).suggestions = flagUpdated t1 st from rfl,
    show (midStore t2 st).suggestions = flagUpdated t2 st from rfl,
    flagUpdated_time_indep t1 t2 st,
    show (midStore t1 st).videos = st.videos from rfl,
    show (midStore t2 st).videos = st.videos from rfl,
    midStore_core_time_indep t1 t2 st]

lemma freshTexts_time_indep (t1 t2 : Nat) (st : Store) :
    freshTexts t1 st = freshTexts t2 st := by
  rw [freshTexts, freshTexts, genInsightTexts_time_indep t1 t2 st]

/-- C8: the Insight Generator is deterministic — two cycles over the same
stored Match set (and the same existing Insights) emit identical insight
texts and identical run summaries; the run timestamp, the only run-dependent
input, never influences the rendered text. -/
theorem insight_generation_deterministic (st : Store) (t1 t2 : Nat) :
    (runCycle t1 st).1.insights.map Insight.text =
      (runCycle t2 st).1.insights.map Insight.text ∧
    (runCycle t1 st).2 = (runCycle t2 st).2 := by
  have hf := freshTexts_time_indep t1 t2 st
  constructor
  · rw [runCycle_insights, runCycle_insights, List.map_append, List.map_append,
      List.map_map, List.map_map, hf]
    rfl
  · rw [show (runCycle t1 st).2 =
        (⟨(st.videos.filter (eligVideo st)).length,
          (freshTexts t1 st).length⟩ : Summary) from rfl,
      show (runCycle t2 st).2 =
        (⟨(st.videos.filter (eligVideo st)).length,
          (freshTexts t2 st).length⟩ : Summary) from rfl, hf]

/-! ### Single-flight orchestration (claim C9) -/

/-- Modelled from the spec: the phases of the cycle state machine
(spec §4.6: Idle → Running → Completed or Failed). -/
inductive CyclePhase
  | idle
  | running
  | completed
  | failed
deriving DecidableEq, Repr

/-- Modelled from the spec: the orchestrator's process-wide view — the
machine's phase and the number of cycle executions currently in flight. -/
structure OrchState where
  phase : CyclePhase
  inFlight : Nat
deriving DecidableEq, Repr

/-- Modelled from the spec: an invocation of runLearningCycle.  While a cycle
is Running the single-flight token is held, so the call is rejected and no
second execution starts; otherwise a new execution starts and the machine
transitions to Running.  The Bool reports whether the call was accepted. -/
def invokeCycle (o : OrchState) : OrchState × Bool :=
  if o.phase = CyclePhase.running then (o, false)
  else (⟨CyclePhase.running, o.inFlight + 1⟩, true)

/-- Modelled from the spec: the in-flight cycle finishes, transitioning the
machine to Completed or Failed. -/
def finishCycle (ok : Bool) (o : OrchState) : OrchState :=
  ⟨if ok then CyclePhase.completed else CyclePhase.failed, o.inFlight - 1⟩

/-- Orchestrator states reachable from the idle start through invocations and
completions of the in-flight cycle. -/
inductive OrchReachable : OrchState → Prop
  | init : OrchReachable ⟨CyclePhase.idle, 0⟩
  | invoke (o : OrchState) (h : OrchReachable o) :
      OrchReachable (invokeCycle o).1
  | finish (o : OrchState) (ok : Bool) (h : OrchReachable o)
      (hrun : o.phase = CyclePhase.running) : OrchReachable (finishCycle ok o)

lemma orch_invariant {o : OrchState} (h : OrchReachable o) :
    o.inFlight ≤ 1 ∧ (o.phase = CyclePhase.running ↔ o.inFlight = 1) := by
  induction h with
  | init => simp
  | invoke o h ih =>
    by_cases hr : o.phase = CyclePhase.running
    · rw [invokeCycle, if_pos hr]
      exact ih
    · rw [invokeCycle, if_neg hr]
      have hne : o.inFlight ≠ 1 := fun he => hr (ih.2.mpr he)
      have hle := ih.1
      have h0 : o.inFlight = 0 := by omega
      simp [h0]
  | finish o ok h hrun ih =>
    have h1 : o.inFlight = 1 := ih.2.mp hrun
    rw [finishCycle]
    cases ok <;> simp [h1]

/-- C9: at most one learning cycle executes at any time — in every reachable
orchestrator state at most one execution is in flight, and an invocation that
arrives while the machine is Running is rejected without starting a second
cycle. -/
theorem single_flight_cycle {o : OrchState} (h : OrchReachable o) :
    o.inFlight ≤ 1 ∧
      (o.phase = CyclePhase.running → invokeCycle o = (o, false)) := by
  refine ⟨(orch_invariant h).1, fun hr => ?_⟩
  rw [invokeCycle, if_pos hr]

/-- Witness for C9 at the state reached by one accepted invocation. -/
theorem single_flight_cycle_witness :
    (invokeCycle ⟨CyclePhase.idle, 0⟩).1.inFlight ≤ 1 ∧
      ((invokeCycle ⟨CyclePhase.idle, 0⟩).1.phase = CyclePhase.running →
        invokeCycle (invokeCycle ⟨CyclePhase.idle, 0⟩).1 =
          ((invokeCycle ⟨CyclePhase.idle, 0⟩).1, false)) :=
  single_flight_cycle (OrchReachable.invoke _ OrchReachable.init)

/-! ### BatchChannelInput (frontend source, claim C10) -/

/-- JS `String.prototype.trim` on the character-list model of a JS string. -/
def jsTrim (s : List Char) : List Char :=
  ((s.dropWhile Char.isWhitespace).reverse.dropWhile Char.isWhitespace).reverse

/-- `handleAdd` of BatchChannelInput.jsx: return unchanged at 10 or more
rows, else append an empty row. -/
def handleAdd (cs : List (List Char)) : List (List Char) :=
  if 10 ≤ cs.length then cs else cs ++ [[]]

/-- `handleRemove` of BatchChannelInput.jsx: keep the last remaining row,
else drop the row at the index. -/
def handleRemove (idx : Nat) (cs : List (List Char)) : List (List Char) :=
  if cs.length ≤ 1 then cs else cs.eraseIdx idx

/-- `handleChange` of BatchChannelInput.jsx: overwrite the row at the index. -/
def handleChange (idx : Nat) (val : List Char) (cs : List (List Char)) :
    List (List Char) :=
  cs.set idx val

/-- `handleSubmit` of BatchChannelInput.jsx: trim every row, drop blank rows
(the JS `filter(Boolean)`), return without calling `onAnalyze` when none
remain, and otherwise call `onAnalyze` with the surviving urls (modelled as
returning them in `some`). -/
def handleSubmit (cs : List (List Char)) : Option (List (List Char)) :=
  let urls := (cs.map jsTrim).filter (fun u => u != [])
  if urls = [] then none else some urls

/-- Row states reachable from the initial single empty row through the
component's handlers. -/
inductive BatchReachable : List (List Char) → Prop
  | init : BatchReachable [[]]
  | add (cs : List (List Char)) (h : BatchReachable cs) :
      BatchReachable (handleAdd cs)
  | remove (idx : Nat) (cs : List (List Char)) (h : BatchReachable cs) :
      BatchReachable (handleRemove idx cs)
  | change (idx : Nat) (val : List Char) (cs : List (List Char))
      (h : BatchReachable cs) : BatchReachable (handleChange idx val cs)

lemma length_eraseIdx_le {α : Type} (l : List α) (i : Nat) :
    (l.eraseIdx i).length ≤ l.length := by
  induction l generalizing i with
  | nil => simp [List.eraseIdx]
  | cons a t ih =>
    cases i with
    | zero => simp [List.eraseIdx]
    | succ j =>
      simp only [List.eraseIdx, List.length_cons]
      exact Nat.succ_le_succ (ih j)

/-- The handlers never grow the row list past 10 entries. -/
lemma batch_length_le {cs : List (List Char)} (h : BatchReachable cs) :
    cs.length ≤ 10 := by
  induction h with
  | init => simp
  | add cs h ih =>
    rw [handleAdd]
    by_cases h10 : 10 ≤ cs.length
    · rw [if_pos h10]; exact ih
    · rw [if_neg h10]
      rw [List.length_append]
      simp only [List.length_singleton]
      omega
  | remove idx cs h ih =>
    rw [handleRemove]
    by_cases h1 : cs.length ≤ 1
    · rw [if_pos h1]; exact ih
    · rw [if_neg h1]
      exact le_trans (length_eraseIdx_le cs idx) ih
  | change idx val cs h ih =>
    rw [handleChange, List.length_set]
    exact ih

/-- C10: whenever submitting the BatchChannelInput form invokes `onAnalyze`,
its argument is a non-empty list of at most 10 strings, each of which is the
trim of one of the current rows and non-blank. -/
theorem batch_submit_valid {cs urls : List (List Char)}
    (h : BatchReachable cs) (hs : handleSubmit cs = some urls) :
    urls ≠ [] ∧ urls.length ≤ 10 ∧
      urls.all (fun u => decide (u ∈ cs.map jsTrim) && u != []) = true := by
  have hlen := batch_length_le h
  simp only [handleSubmit] at hs
  by_cases hnil : ((cs.map jsTrim).filter (fun u => u != [])) = []
  · rw [if_pos hnil] at hs; cases hs
  · rw [if_neg hnil] at hs
    obtain rfl := Option.some.inj hs
    refine ⟨hnil, ?_, ?_⟩
    · calc ((cs.map jsTrim).filter (fun u => u != [])).length
          ≤ (cs.map jsTrim).length := List.length_filter_le _ _
        _ = cs.length := List.length_map _ _
        _ ≤ 10 := hlen
    · apply List.all_eq_true.mpr
      intro u hu
      obtain ⟨hu1, hu2⟩ := List.mem_filter.mp hu
      rw [Bool.and_eq_true, decide_eq_true_eq]
      exact ⟨hu1, hu2⟩

/-- Witness for C10: submit after typing into the single initial row. -/
theorem batch_submit_valid_witness :
    handleSubmit (handleChange 0 ['h', 'i'] [[]]) = some [['h', 'i']] ∧
      ([['h', 'i']] : List (List Char)) ≠ [] ∧
      ([['h', 'i']] : List (List Char)).length ≤ 10 ∧
      ([['h', 'i']] : List (List Char)).all
        (fun u => decide (u ∈ (handleChange 0 ['h', 'i'] [[]]).map jsTrim) &&
          u != []) = true :=
  ⟨by decide,
   batch_submit_valid
     (BatchReachable.change 0 ['h', 'i'] [[]] BatchReachable.init) (by decide)⟩

end YTLearning
